import Mathlib

/-
Verification of the persistence-and-routing core of the `urls` repository
(a single-file application, `app.py`, managing named JSON endpoints).

The embedding below translates `app.py` into Lean:
* `Json` models a parsed JSON value as produced by Python's `json` module
  (numbers are modelled as integers; every document appearing in this
  development is integer-valued).
* a Python dictionary obtained from JSON is modelled as an association list
  `List (String × Json)` in insertion order, which is exactly the order the
  persistence format preserves; `dictGet`, `dictSet`, `dictRemove` and
  `dict_update` model Python's `d[k]`, `d[k] = v`, `del d[k]` and
  `d.update(other)` on such dictionaries.
* `FileState` abstracts the contents of `DATA_FILE` ("endpoints.json") by
  their parse outcome: the file is absent, or present but unparseable
  (`json.load` raises `JSONDecodeError`/`ValueError`), or parseable.
  `save_endpoints` (`json.dump` of a dictionary) always writes a parseable
  JSON object, so a parseable file is modelled by the dictionary it denotes.
* request text fields (`st.text_area` contents, `st.session_state.post_data`)
  are modelled by `Text`: the raw string — the program inspects only its
  Python truthiness, i.e. emptiness — together with the outcome of
  `json.loads` on it (`none` when parsing raises `JSONDecodeError`).
  Where only the staged payload's parse outcome is ever used (the API
  branch re-parses the staged string, deterministically giving the result
  computed at staging time), the payload is passed as `Option Json`.
-/

namespace App

/-- A JSON value as handled by Python's `json` module.  Object fields are
kept in insertion order, matching Python dictionaries and the persistence
format. -/
inductive Json where
  | null
  | bool (b : Bool)
  | num (n : Int)
  | str (s : String)
  | arr (elems : List Json)
  | obj (fields : List (String × Json))


/-- A Python dictionary with string keys and JSON values, in insertion
order. -/
abbrev Dict := List (String × Json)

/-- Python `d[k]` / `d.get(k)`: the value at key `k`, if present.  Keys of a
Python dictionary are unique, so the first match is the only one. -/
def dictGet : Dict → String → Option Json
  | [], _ => none
  | p :: rest, k => if p.1 = k then some p.2 else dictGet rest k

/-- Python `d[k] = v`: replace the value at `k` in place (Python preserves
the key's position) or append a new entry at the end. -/
def dictSet (d : Dict) (k : String) (v : Json) : Dict :=
  if (dictGet d k).isSome then
    d.map (fun p => if p.1 = k then (k, v) else p)
  else
    d ++ [(k, v)]

/-- Python `del d[k]`: remove the entry with key `k` (keys are unique in a
Python dictionary, so removing the key is filtering it out). -/
def dictRemove : Dict → String → Dict
  | [], _ => []
  | p :: rest, k => if p.1 = k then dictRemove rest k else p :: dictRemove rest k

/-- Python `d.update(incoming)` for two dictionaries: each incoming entry is
assigned in order, overwriting existing keys in place and appending new
ones. -/
def dict_update : Dict → Dict → Dict
  | d, [] => d
  | d, (k, v) :: rest => dict_update (dictSet d k v) rest

/-- Python `existing.update(incoming)` where both sides are arbitrary parsed
JSON values, as in `endpoints_data[endpoint_name].update(incoming_data)`
(app.py line 53).  It is defined only when both sides are objects; every
other combination raises an exception not caught by the surrounding
`except json.JSONDecodeError` handler (`AttributeError` when the stored
document is not a dictionary; `TypeError`/`ValueError` for non-mapping
payloads — Python would also accept a sequence of pairs, but no request in
this development carries an array payload, and such payloads fall outside
every claim, so they are conservatively mapped to the fault outcome together
with the genuinely raising cases). -/
def dict_merge : Json → Json → Option Json
  | .obj d, .obj inc => some (.obj (dict_update d inc))
  | _, _ => none

/-- The contents of `DATA_FILE`, abstracted by their parse outcome. -/
inductive FileState where
  | absent
  | corrupt
  | holds (d : Dict)


/-- app.py lines 13-23: return the parsed file contents; an absent file or a
`JSONDecodeError`/`ValueError` (corrupted or empty file) yields the empty
dictionary.  The `file_lock` serializes file access; the claims are about
single requests, so the lock is not modelled. -/
def load_endpoints : FileState → Dict
  | .absent => []
  | .corrupt => []
  | .holds d => d

/-- app.py lines 25-29: `json.dump` the dictionary, leaving the file holding
exactly that dictionary. -/
def save_endpoints (endpoints_dict : Dict) : FileState :=
  .holds endpoints_dict

/-- Python `str.strip` on a list of characters: drop whitespace from both
ends. -/
def stripChars (l : List Char) : List Char :=
  ((l.dropWhile Char.isWhitespace).reverse.dropWhile Char.isWhitespace).reverse

/-- Python `s.strip()`. -/
def pyStrip (s : String) : String :=
  String.mk (stripChars s.data)

/-- Python `s.lower()` (ASCII case mapping; every name in this development
is ASCII). -/
def pyLower (s : String) : String :=
  String.mk (s.data.map Char.toLower)

/-- Python `s.replace(" ", "_")`: the pattern and replacement are single
characters, so the replacement is a character map. -/
def pyReplaceSpace (s : String) : String :=
  String.mk (s.data.map (fun c => if c = ' ' then '_' else c))

/-- app.py lines 108 and 137: `name.strip().lower().replace(" ", "_")`. -/
def clean_name (s : String) : String :=
  pyReplaceSpace (pyLower (pyStrip s))

/-- A request text field: the raw string (only its Python truthiness, i.e.
emptiness, is inspected by the program) together with the result of
`json.loads` on it (`none` when parsing raises `JSONDecodeError`). -/
structure Text where
  raw : String
  parsed : Option Json


/-- The three terminal actions a request can be routed to (spec section 4.3). -/
inductive Action where
  | renderManagementView
  | applyUpdate (name : String)
  | serveDocument (name : String)

/-- The response a single script run emits on the API path, or the fact that
it fell through to the management view. -/
inductive Response where
  | updateSuccess (name : String)
  | badRequest
  | document (j : Json)
  | notFound
  | managementView
  | silentStop

/-- The observable outcome of one script run: the response emitted, the file
afterwards, and the session state `post_data` afterwards (`none` when the
key is absent from `st.session_state`; `some p` when it is present and its
`json.loads` outcome is `p`). -/
structure ScriptResult where
  response : Response
  file : FileState
  post_data : Option (Option Json)

/-- The request classifier, extracted from the dispatch conditions of
app.py: `if endpoint_name:` (line 45, Python truthiness: `None` and the
empty string are falsy), `if "post_data" in st.session_state and
endpoint_name in endpoints_data:` (line 50), and `if endpoint_name in
endpoints_data:` (line 65). -/
def classify (q : Option String) (has_payload : Bool) (d : Dict) : Action :=
  match q with
  | none => .renderManagementView
  | some n =>
    if n = "" then .renderManagementView
    else if has_payload && (dictGet d n).isSome then .applyUpdate n
    else .serveDocument n

/-- app.py lines 42-70, one script run in API handling mode.  Inputs: the
`endpoint` query parameter, the staged `st.session_state.post_data` (as its
presence and parse outcome), and the data file.  The update branch follows
the source order: parse the staged payload (`JSONDecodeError` gives the
400 response and leaves `post_data` in place), `.update` the stored
document (an exception here — e.g. `AttributeError` on a non-dictionary
document — is not caught, and the `st.stop()` raised by the `finally`
block supersedes it, so the run ends without emitting any response:
`silentStop`), save, emit the success response, and only then delete
`post_data`.  Serving and the 404 branch stop without touching the file or
the session state. -/
def handle_request (q : Option String) (pd : Option (Option Json)) (fs : FileState) : ScriptResult :=
  match q with
  | none => ⟨.managementView, fs, pd⟩
  | some n =>
    if n = "" then ⟨.managementView, fs, pd⟩
    else
      match pd, dictGet (load_endpoints fs) n with
      | some txt, some existing =>
        match txt with
        | none => ⟨.badRequest, fs, pd⟩
        | some incoming =>
          match dict_merge existing incoming with
          | none => ⟨.silentStop, fs, pd⟩
          | some merged =>
            ⟨.updateSuccess n, save_endpoints (dictSet (load_endpoints fs) n merged), none⟩
      | none, some existing => ⟨.document existing, fs, pd⟩
      | _, none => ⟨.notFound, fs, pd⟩

/-- The user-visible messages the two management forms can emit. -/
inductive UIMessage where
  | saved (name : String)
  | invalidJson
  | missingInput
  | notFoundName (name : String)

/-- Outcome of a create-form submission: the message shown and the file
afterwards. -/
structure CreateResult where
  message : UIMessage
  file : FileState

/-- app.py lines 106-118, the "Create or Update an Endpoint" form handler:
both fields must be truthy (non-empty); the name is normalized with
`clean_name`; a payload that parses is assigned at the normalized name and
saved; a `JSONDecodeError` shows an error and changes nothing. -/
def create_endpoint_form (new_endpoint_name : String) (json_data : Text) (fs : FileState) : CreateResult :=
  if new_endpoint_name ≠ "" ∧ json_data.raw ≠ "" then
    match json_data.parsed with
    | some j =>
      ⟨.saved (clean_name new_endpoint_name),
        save_endpoints (dictSet (load_endpoints fs) (clean_name new_endpoint_name) j)⟩
    | none => ⟨.invalidJson, fs⟩
  else ⟨.missingInput, fs⟩

/-- Outcome of a post-form submission: the message shown (if any), the file
afterwards (this form never writes the file), the `post_data` staged into
session state (`none` when nothing was staged), and the `endpoint` query
parameter set for the rerun (`none` when it was not set). -/
structure PostFormResult where
  message : Option UIMessage
  file : FileState
  staged : Option (Option Json)
  target : Option String

/-- app.py lines 134-151, the "Send Update" form handler: both fields must
be truthy; the name is normalized with `clean_name`; if the normalized name
exists in the loaded dictionary and the payload parses, the raw payload is
staged in `st.session_state.post_data` and the `endpoint` query parameter
is set to the normalized name for the rerun; otherwise an error message is
shown and nothing is staged or written. -/
def post_endpoint_form (post_endpoint_name : String) (post_json_data : Text) (fs : FileState) : PostFormResult :=
  if post_endpoint_name ≠ "" ∧ post_json_data.raw ≠ "" then
    if (dictGet (load_endpoints fs) (clean_name post_endpoint_name)).isSome then
      match post_json_data.parsed with
      | some j => ⟨none, fs, some (some j), some (clean_name post_endpoint_name)⟩
      | none => ⟨some .invalidJson, fs, none, none⟩
    else ⟨some (.notFoundName (clean_name post_endpoint_name)), fs, none, none⟩
  else ⟨some .missingInput, fs, none, none⟩

/-- app.py lines 177-182, the per-endpoint delete button handler: load, and
only if the key is present, delete it and save.  The returned boolean
records whether the delete branch ran (the spec's `delete -> bool` return
value). -/
def delete_endpoint (key : String) (fs : FileState) : Bool × FileState :=
  if (dictGet (load_endpoints fs) key).isSome then
    (true, save_endpoints (dictRemove (load_endpoints fs) key))
  else
    (false, fs)

/-- Looking up a key in a concatenation whose first part misses it falls
through to the second part. -/
theorem dictGet_append_none (d1 d2 : Dict) (k : String) (h : dictGet d1 k = none) :
    dictGet (d1 ++ d2) k = dictGet d2 k := by
  induction d1 with
  | nil => simp
  | cons p rest ih =>
    by_cases hp : p.1 = k
    · simp [dictGet, hp] at h
    · simp only [List.cons_append, dictGet, hp, if_false] at h ⊢
      exact ih h

/-- Looking up a key found in the first part of a concatenation ignores the
second part. -/
theorem dictGet_append_some (d1 d2 : Dict) (k : String) (w : Json)
    (h : dictGet d1 k = some w) : dictGet (d1 ++ d2) k = some w := by
  induction d1 with
  | nil => simp [dictGet] at h
  | cons p rest ih =>
    by_cases hp : p.1 = k
    · simp only [dictGet, hp, if_true] at h
      simp [dictGet, hp, h]
    · simp only [List.cons_append, dictGet, hp, if_false] at h ⊢
      exact ih h

/-- The in-place replacement pass of `dictSet` stores the new value at a key
that is present. -/
theorem dictGet_map_set_self (d : Dict) (k : String) (v : Json)
    (h : (dictGet d k).isSome = true) :
    dictGet (d.map (fun p => if p.1 = k then (k, v) else p)) k = some v := by
  induction d with
  | nil => simp [dictGet] at h
  | cons p rest ih =>
    by_cases hp : p.1 = k
    · simp [dictGet, hp]
    · simp only [dictGet, hp, if_false] at h
      simp only [List.map_cons, if_neg hp, dictGet, hp, if_false]
      exact ih h

/-- The in-place replacement pass of `dictSet` leaves every other key's
binding unchanged. -/
theorem dictGet_map_set_other (d : Dict) (k k2 : String) (v : Json) (h : k2 ≠ k) :
    dictGet (d.map (fun p => if p.1 = k then (k, v) else p)) k2 = dictGet d k2 := by
  induction d with
  | nil => simp
  | cons p rest ih =>
    by_cases hp : p.1 = k
    · have hk2 : k ≠ k2 := fun he => h he.symm
      simp only [List.map_cons, if_pos hp, dictGet, hk2, if_false, hp ▸ hk2]
      exact ih
    · by_cases hp2 : p.1 = k2
      · simp [dictGet, hp, hp2, h]
      · simp only [List.map_cons, if_neg hp, dictGet, hp2, if_false]
        exact ih

/-- `dictSet` stores the assigned value at the assigned key. -/
theorem dictGet_set_self (d : Dict) (k : String) (v : Json) :
    dictGet (dictSet d k v) k = some v := by
  unfold dictSet
  cases he : dictGet d k with
  | some w =>
    have h : (dictGet d k).isSome = true := by rw [he]; rfl
    simpa [h] using dictGet_map_set_self d k v h
  | none =>
    simp only [he, Option.isSome_none, Bool.false_eq_true, if_false]
    rw [dictGet_append_none _ _ _ he]
    simp [dictGet]

/-- `dictSet` leaves every other key's binding unchanged. -/
theorem dictGet_set_other (d : Dict) (k k2 : String) (v : Json) (h : k2 ≠ k) :
    dictGet (dictSet d k v) k2 = dictGet d k2 := by
  unfold dictSet
  cases hn : dictGet d k with
  | some w =>
    have hc : (dictGet d k).isSome = true := by rw [hn]; rfl
    simpa [hc] using dictGet_map_set_other d k k2 v h
  | none =>
    simp only [hn, Option.isSome_none, Bool.false_eq_true, if_false]
    cases he : dictGet d k2 with
    | some w =>
      rw [dictGet_append_some d [(k, v)] k2 w he]
    | none =>
      have hk : ¬k = k2 := fun he2 => h he2.symm
      rw [dictGet_append_none _ _ _ he]
      simp [dictGet, hk]

/-- `dictRemove` removes the key's binding. -/
theorem dictGet_remove_self (d : Dict) (k : String) :
    dictGet (dictRemove d k) k = none := by
  induction d with
  | nil => rfl
  | cons p rest ih =>
    by_cases hp : p.1 = k
    · simpa [dictRemove, hp] using ih
    · simpa [dictRemove, dictGet, hp] using ih

/-- Merging a dictionary whose keys avoid `k` leaves the binding at `k`
unchanged. -/
theorem dict_update_get_not_mem (inc : Dict) : ∀ (d : Dict) (k : String),
    k ∉ inc.map Prod.fst → dictGet (dict_update d inc) k = dictGet d k := by
  induction inc with
  | nil => intro d k _; rfl
  | cons p rest ih =>
    intro d k h
    obtain ⟨pk, pv⟩ := p
    simp only [List.map_cons, List.mem_cons, not_or] at h
    show dictGet (dict_update (dictSet d pk pv) rest) k = dictGet d k
    rw [ih _ _ h.2, dictGet_set_other _ _ _ _ h.1]

/-- Merging stores the incoming value at each incoming key (the incoming
dictionary has unique keys, as every Python dictionary does). -/
theorem dict_update_get_mem (inc : Dict) : ∀ (d : Dict) (k : String) (v : Json),
    (inc.map Prod.fst).Nodup → (k, v) ∈ inc →
    dictGet (dict_update d inc) k = some v := by
  induction inc with
  | nil => intro d k v _ hm; cases hm
  | cons p rest ih =>
    intro d k v hnd hm
    obtain ⟨pk, pv⟩ := p
    simp only [List.map_cons, List.nodup_cons] at hnd
    rcases List.mem_cons.mp hm with heq | hmem
    · obtain ⟨hk, hv⟩ := Prod.mk.injEq .. ▸ heq
      subst hk; subst hv
      show dictGet (dict_update (dictSet d k v) rest) k = some v
      rw [dict_update_get_not_mem rest _ _ hnd.1, dictGet_set_self]
    · exact ih _ _ _ hnd.2 hmem

/-- C1 counterexample: the claim says the action is a function of
(target name, payload) alone, with apply-update whenever both are present.
With target name "ghost" present and a staged payload present, but "ghost"
absent from the store, the code's dispatch condition
`"post_data" in st.session_state and endpoint_name in endpoints_data`
fails, so the request is classified serve-document (and the handler emits
the 404 response without consuming the staged payload) rather than
apply-update. -/
theorem c1_routing_counterexample :
    classify (some "ghost") true [] = Action.serveDocument "ghost" ∧
    classify (some "ghost") true [] ≠ Action.applyUpdate "ghost" ∧
    handle_request (some "ghost") (some (some (Json.obj [("x", Json.num 1)]))) (FileState.holds [])
      = ⟨Response.notFound, FileState.holds [], some (some (Json.obj [("x", Json.num 1)]))⟩ :=
  ⟨rfl, fun h => Action.noConfusion h, rfl⟩

/-- C1 (amended): the request classifier maps every inbound request to
exactly one of three actions as a function of (target name, payload
presence, store membership): no target name (or an empty one, which Python
truthiness treats as absent) gives render-management-view; a target name
with a payload present and the name present in the store at read time gives
apply-update; a target name otherwise (no payload, or the name absent from
the store) gives serve-document; and after serving a document no
management-view rendering occurs in the same request. -/
theorem c1_routing_classification (q : Option String) (pd : Option (Option Json)) (d : Dict) :
    (classify q pd.isSome d = Action.renderManagementView ↔ (q = none ∨ q = some "")) ∧
    (∀ n : String, q = some n → n ≠ "" →
      ((pd.isSome = true ∧ (dictGet d n).isSome = true) →
          classify q pd.isSome d = Action.applyUpdate n) ∧
      (¬(pd.isSome = true ∧ (dictGet d n).isSome = true) →
          classify q pd.isSome d = Action.serveDocument n)) ∧
    (∀ n : String, q = some n → n ≠ "" →
      (handle_request q pd (FileState.holds d)).response ≠ Response.managementView) := by
  refine ⟨?_, ?_, ?_⟩
  · cases q with
    | none => simp [classify]
    | some n =>
      by_cases hn : n = ""
      · subst hn; simp [classify]
      · simp only [classify, if_neg hn]
        constructor
        · intro hcl
          by_cases hb : (pd.isSome && (dictGet d n).isSome) = true
          · rw [if_pos hb] at hcl; exact Action.noConfusion hcl
          · rw [if_neg hb] at hcl; exact Action.noConfusion hcl
        · intro hq
          rcases hq with hq | hq
          · exact Option.noConfusion hq
          · exact absurd (Option.some.inj hq) hn
  · intro n hq hn
    subst hq
    constructor
    · rintro ⟨h1, h2⟩
      simp only [classify, if_neg hn]
      rw [if_pos (by simp [h1, h2])]
    · intro hcon
      simp only [classify, if_neg hn]
      have hb : ¬((pd.isSome && (dictGet d n).isSome) = true) := by
        intro hb
        simp only [Bool.and_eq_true] at hb
        exact hcon hb
      rw [if_neg hb]
  · intro n hq hn
    subst hq
    cases pd with
    | none =>
      cases hg : dictGet d n with
      | none => simp [handle_request, hn, hg, load_endpoints]
      | some ex => simp [handle_request, hn, hg, load_endpoints]
    | some txt =>
      cases hg : dictGet d n with
      | none => simp [handle_request, hn, hg, load_endpoints]
      | some ex =>
        cases txt with
        | none => simp [handle_request, hn, hg, load_endpoints]
        | some inc =>
          cases hm : dict_merge ex inc with
          | none => simp [handle_request, hn, hg, hm, load_endpoints]
          | some merged => simp [handle_request, hn, hg, hm, load_endpoints]

/-- C1 witness: a concrete request with a target name and no payload is
classified serve-document and does not render the management view. -/
theorem c1_routing_classification_witness :
    classify (some "x") (none : Option (Option Json)).isSome [] = Action.serveDocument "x" ∧
    (handle_request (some "x") none (FileState.holds [])).response ≠ Response.managementView := by
  have h := c1_routing_classification (some "x") none []
  refine ⟨(h.2.1 "x" rfl (by decide)).2 ?_, h.2.2 "x" rfl (by decide)⟩
  intro hc
  exact absurd hc.1 (by decide)

/-- C2: the merge applied by the update branch is a shallow top-level merge:
every key of the payload ends up mapped to the payload's value, every other
key keeps its previous value, merging `b:3, c:4` into `a:1, b:2` yields
`a:1, b:3, c:4`, and the handler persists exactly this merge of the stored
document with the payload. -/
theorem c2_merge_semantics :
    (∀ (ex inc : Dict) (k : String) (v : Json),
        (inc.map Prod.fst).Nodup → (k, v) ∈ inc →
        dictGet (dict_update ex inc) k = some v) ∧
    (∀ (ex inc : Dict) (k : String),
        k ∉ inc.map Prod.fst →
        dictGet (dict_update ex inc) k = dictGet ex k) ∧
    dict_update [("a", Json.num 1), ("b", Json.num 2)] [("b", Json.num 3), ("c", Json.num 4)]
      = [("a", Json.num 1), ("b", Json.num 3), ("c", Json.num 4)] ∧
    (∀ (d : Dict) (n : String) (ex inc : Dict),
        n ≠ "" → dictGet d n = some (Json.obj ex) →
        handle_request (some n) (some (some (Json.obj inc))) (FileState.holds d)
          = ⟨Response.updateSuccess n,
              save_endpoints (dictSet d n (Json.obj (dict_update ex inc))), none⟩) := by
  refine ⟨fun ex inc k v h1 h2 => dict_update_get_mem inc ex k v h1 h2,
          fun ex inc k h => dict_update_get_not_mem inc ex k h, rfl, ?_⟩
  intro d n ex inc hn hg
  simp [handle_request, hn, hg, load_endpoints, dict_merge]

/-- C2 witness: the merge at a concrete payload key returns the payload's
value. -/
theorem c2_merge_semantics_witness :
    dictGet (dict_update [("a", Json.num 1), ("b", Json.num 2)]
        [("b", Json.num 3), ("c", Json.num 4)]) "b" = some (Json.num 3) :=
  c2_merge_semantics.1 [("a", Json.num 1), ("b", Json.num 2)]
    [("b", Json.num 3), ("c", Json.num 4)] "b" (Json.num 3) (by decide)
    (List.mem_cons_self _ _)

/-- C3: an update aimed at a name absent from the mapping at read time is
reported not-found — on the API path the request falls through to the 404
response with the file and session state untouched, and on the form path an
error message is shown with nothing staged or written — and no request
handled by the API path ever introduces a new top-level name. -/
theorem c3_update_absent_not_found :
    (∀ (d : Dict) (n : String) (pd : Option (Option Json)),
        n ≠ "" → dictGet d n = none →
        handle_request (some n) pd (FileState.holds d)
          = ⟨Response.notFound, FileState.holds d, pd⟩) ∧
    (∀ (name : String) (body : Text) (fs : FileState),
        name ≠ "" → body.raw ≠ "" →
        dictGet (load_endpoints fs) (clean_name name) = none →
        post_endpoint_form name body fs
          = ⟨some (UIMessage.notFoundName (clean_name name)), fs, none, none⟩) ∧
    (∀ (q : Option String) (pd : Option (Option Json)) (d : Dict) (k : String),
        (dictGet (load_endpoints (handle_request q pd (FileState.holds d)).file) k).isSome = true →
        (dictGet d k).isSome = true) := by
  refine ⟨?_, ?_, ?_⟩
  · intro d n pd hn hg
    cases pd with
    | none => simp [handle_request, hn, hg, load_endpoints]
    | some txt => simp [handle_request, hn, hg, load_endpoints]
  · intro name body fs h1 h2 hg
    simp [post_endpoint_form, h1, h2, hg]
  · intro q pd d k h
    cases q with
    | none => exact h
    | some n =>
      by_cases hn : n = ""
      · subst hn; exact h
      · cases pd with
        | none =>
          cases hg : dictGet d n with
          | none => simpa [handle_request, hn, hg, load_endpoints] using h
          | some ex => simpa [handle_request, hn, hg, load_endpoints] using h
        | some txt =>
          cases hg : dictGet d n with
          | none => simpa [handle_request, hn, hg, load_endpoints] using h
          | some ex =>
            cases txt with
            | none => simpa [handle_request, hn, hg, load_endpoints] using h
            | some inc =>
              cases hm : dict_merge ex inc with
              | none => simpa [handle_request, hn, hg, hm, load_endpoints] using h
              | some merged =>
                simp only [handle_request, if_neg hn, load_endpoints, hg, hm,
                  save_endpoints] at h
                by_cases hk : k = n
                · subst hk; rw [hg]; rfl
                · rw [dictGet_set_other d n k merged hk] at h; exact h

/-- C3 witness: a staged update for an absent name on a concrete store
falls through to the 404 response and changes nothing. -/
theorem c3_update_absent_not_found_witness :
    handle_request (some "ghost") (some (some (Json.obj [("x", Json.num 1)])))
        (FileState.holds [("a", Json.num 1)])
      = ⟨Response.notFound, FileState.holds [("a", Json.num 1)],
          some (some (Json.obj [("x", Json.num 1)]))⟩ :=
  c3_update_absent_not_found.1 [("a", Json.num 1)] "ghost"
    (some (some (Json.obj [("x", Json.num 1)]))) (by decide) rfl

/-- C4 (code bug): with a stored document that is not a JSON object, the
update branch of the embedded code ends in the fault outcome — the uncaught
exception from `.update` is superseded by the stop in the `finally` block,
so no response at all is emitted, the file is unchanged and the staged
payload is left in session state — instead of the BadDocument/bad-request
outcome the claim requires.  The second conjunct shows the one case the
code does handle as the claim says: a payload text that is not valid JSON
gives the 400 response and leaves the mapping unchanged. -/
theorem c4_merge_nonobject_fault :
    handle_request (some "n") (some (some (Json.obj [("x", Json.num 1)])))
        (FileState.holds [("n", Json.num 5)])
      = ⟨Response.silentStop, FileState.holds [("n", Json.num 5)],
          some (some (Json.obj [("x", Json.num 1)]))⟩ ∧
    handle_request (some "n") (some none) (FileState.holds [("n", Json.num 5)])
      = ⟨Response.badRequest, FileState.holds [("n", Json.num 5)], some none⟩ :=
  ⟨rfl, rfl⟩

/-- C5: loading is total over storage states — an absent file and an
unparseable file both load as the empty mapping rather than failing — and a
subsequent save succeeds, writing a valid snapshot that loads back to the
same mapping. -/
theorem c5_load_total :
    load_endpoints FileState.absent = [] ∧
    load_endpoints FileState.corrupt = [] ∧
    (∀ fs : FileState,
        save_endpoints (load_endpoints fs) = FileState.holds (load_endpoints fs)) ∧
    (∀ fs : FileState,
        load_endpoints (save_endpoints (load_endpoints fs)) = load_endpoints fs) :=
  ⟨rfl, rfl, fun _ => rfl, fun _ => rfl⟩

/-- C6: every name stored by the create operation is normalized with
`clean_name` (lowercased, trimmed, spaces replaced by underscores) and the
document lands under that normalized key; the update-staging form likewise
stages its payload under the normalized name; normalizing " User Info "
gives "user_info", and a document created under " User Info " is served by
a request for "user_info". -/
theorem c6_names_normalized :
    (∀ (s : String) (body : Text) (fs : FileState) (j : Json),
        s ≠ "" → body.raw ≠ "" → body.parsed = some j →
        dictGet (load_endpoints (create_endpoint_form s body fs).file) (clean_name s)
          = some j) ∧
    (∀ (s : String) (body : Text) (fs : FileState) (j : Json),
        s ≠ "" → body.raw ≠ "" → body.parsed = some j →
        (dictGet (load_endpoints fs) (clean_name s)).isSome = true →
        (post_endpoint_form s body fs).target = some (clean_name s) ∧
        (post_endpoint_form s body fs).staged = some (some j)) ∧
    clean_name " User Info " = "user_info" ∧
    (handle_request (some "user_info") none
        (create_endpoint_form " User Info " ⟨"7", some (Json.num 7)⟩ FileState.absent).file).response
      = Response.document (Json.num 7) := by
  refine ⟨?_, ?_, rfl, rfl⟩
  · intro s body fs j h1 h2 h3
    simp [create_endpoint_form, h1, h2, h3, save_endpoints, load_endpoints, dictGet_set_self]
  · intro s body fs j h1 h2 h3 h4
    simp [post_endpoint_form, h1, h2, h3, h4]

/-- C6 witness: a concrete create stores the document under the normalized
name. -/
theorem c6_names_normalized_witness :
    dictGet (load_endpoints
        (create_endpoint_form "N" ⟨"1", some (Json.num 1)⟩ FileState.absent).file)
        (clean_name "N")
      = some (Json.num 1) :=
  c6_names_normalized.1 "N" ⟨"1", some (Json.num 1)⟩ FileState.absent (Json.num 1)
    (by decide) (by decide) rfl

/-- C7 (code bug): a submission whose name is whitespace-only passes the
truthiness validation (which runs before normalization), normalizes to the
empty string, and is stored under the empty-string key — so the persisted
mapping can contain an empty key, contrary to the claimed invariant that
every persisted key is a non-empty string. -/
theorem c7_whitespace_name_empty_key :
    (create_endpoint_form " " ⟨"1", some (Json.num 1)⟩ FileState.absent).file
      = FileState.holds [("", Json.num 1)] ∧
    dictGet (load_endpoints
        (create_endpoint_form " " ⟨"1", some (Json.num 1)⟩ FileState.absent).file) ""
      = some (Json.num 1) :=
  ⟨rfl, rfl⟩

/-- C8: deleting a present name removes its entry, persists the result and
reports true, after which the name is absent and a second delete of the
same name reports false; deleting an absent name is a no-op reporting
false. -/
theorem c8_delete_semantics :
    (∀ (key : String) (fs : FileState),
        (dictGet (load_endpoints fs) key).isSome = true →
        (delete_endpoint key fs).1 = true ∧
        dictGet (load_endpoints (delete_endpoint key fs).2) key = none ∧
        (delete_endpoint key (delete_endpoint key fs).2).1 = false) ∧
    (∀ (key : String) (fs : FileState),
        dictGet (load_endpoints fs) key = none →
        delete_endpoint key fs = (false, fs)) := by
  constructor
  · intro key fs h
    have hd : delete_endpoint key fs
        = (true, save_endpoints (dictRemove (load_endpoints fs) key)) := by
      unfold delete_endpoint
      rw [if_pos h]
    have h2 : dictGet (load_endpoints (delete_endpoint key fs).2) key = none := by
      rw [hd]
      simp [save_endpoints, load_endpoints, dictGet_remove_self]
    refine ⟨by rw [hd], h2, ?_⟩
    generalize hx : (delete_endpoint key fs).2 = fs2 at h2 ⊢
    unfold delete_endpoint
    rw [h2]
    simp
  · intro key fs h
    unfold delete_endpoint
    rw [h]
    simp

/-- C8 witness: create-then-delete on a concrete store returns true, leaves
the name absent, and a second delete returns false. -/
theorem c8_delete_semantics_witness :
    (delete_endpoint "user_info" (FileState.holds [("user_info", Json.num 1)])).1 = true ∧
    dictGet (load_endpoints
        (delete_endpoint "user_info" (FileState.holds [("user_info", Json.num 1)])).2)
        "user_info" = none ∧
    (delete_endpoint "user_info"
        (delete_endpoint "user_info" (FileState.holds [("user_info", Json.num 1)])).2).1
      = false :=
  c8_delete_semantics.1 "user_info" (FileState.holds [("user_info", Json.num 1)]) rfl

/-- C9 counterexample: create_or_replace("A", 1) stores the document under
the normalized name "a", but the GET path looks the raw query name up
without normalizing, so get("A") afterwards is not-found rather than the
document — the round trip fails for a name that is not already
normalized. -/
theorem c9_round_trip_counterexample :
    (create_endpoint_form "A" ⟨"1", some (Json.num 1)⟩ FileState.absent).file
      = FileState.holds [("a", Json.num 1)] ∧
    (handle_request (some "A") none
        (create_endpoint_form "A" ⟨"1", some (Json.num 1)⟩ FileState.absent).file).response
      = Response.notFound ∧
    Response.notFound ≠ Response.document (Json.num 1) :=
  ⟨rfl, rfl, fun h => Response.noConfusion h⟩

/-- C9 (amended): for every valid JSON document D and every name N,
create_or_replace(N, D) followed by get of the *normalized* name returns a
document deep-equal to D; in particular creating over an existing name
fully replaces the previous document (the served value is exactly D,
whatever was stored before). -/
theorem c9_round_trip_normalized (N : String) (body : Text) (D : Json) (fs : FileState)
    (h1 : N ≠ "") (h2 : body.raw ≠ "") (h3 : body.parsed = some D)
    (h4 : clean_name N ≠ "") :
    (handle_request (some (clean_name N)) none (create_endpoint_form N body fs).file).response
      = Response.document D := by
  have hfile : (create_endpoint_form N body fs).file
      = save_endpoints (dictSet (load_endpoints fs) (clean_name N) D) := by
    simp [create_endpoint_form, h1, h2, h3]
  have hget : dictGet (load_endpoints
      (save_endpoints (dictSet (load_endpoints fs) (clean_name N) D))) (clean_name N)
      = some D := by
    simp [save_endpoints, load_endpoints, dictGet_set_self]
  rw [hfile]
  simp [handle_request, h4, hget]

/-- C9 witness: creating "B" over a store that already holds a document at
"b" replaces it, and the GET at the normalized name serves the new
document. -/
theorem c9_round_trip_normalized_witness :
    (handle_request (some (clean_name "B")) none
        (create_endpoint_form "B" ⟨"2", some (Json.num 2)⟩
          (FileState.holds [("b", Json.num 0)])).file).response
      = Response.document (Json.num 2) :=
  c9_round_trip_normalized "B" ⟨"2", some (Json.num 2)⟩ (Json.num 2)
    (FileState.holds [("b", Json.num 0)]) (by decide) (by decide) rfl (by decide)

/-- C10: when the staged payload fails to parse in the apply-update branch,
the 400 response is emitted but `post_data` is not cleared from session
state (the deletion runs only on the success path, as the third conjunct
shows), so the surviving staged payload classifies a later request for any
stored name as apply-update again. -/
theorem c10_staged_payload_survives (d : Dict) (n : String)
    (hn : n ≠ "") (hm : (dictGet d n).isSome = true) :
    handle_request (some n) (some none) (FileState.holds d)
      = ⟨Response.badRequest, FileState.holds d, some none⟩ ∧
    classify (some n) (some (none : Option Json)).isSome d = Action.applyUpdate n ∧
    (∀ ex inc : Dict, dictGet d n = some (Json.obj ex) →
        (handle_request (some n) (some (some (Json.obj inc))) (FileState.holds d)).post_data
          = none) := by
  obtain ⟨ex, hex⟩ := Option.isSome_iff_exists.mp hm
  refine ⟨?_, ?_, ?_⟩
  · simp [handle_request, hn, hex, load_endpoints]
  · simp only [classify, if_neg hn]
    rw [if_pos (by simp [hm])]
  · intro ex2 inc hg
    simp [handle_request, hn, hg, load_endpoints, dict_merge]

/-- C10 witness: on a concrete store the failed parse leaves the staged
payload in session state. -/
theorem c10_staged_payload_survives_witness :
    handle_request (some "n") (some none) (FileState.holds [("n", Json.num 1)])
      = ⟨Response.badRequest, FileState.holds [("n", Json.num 1)], some none⟩ :=
  (c10_staged_payload_survives [("n", Json.num 1)] "n" (by decide) rfl).1

end App
